import Mathlib

/-!
Shallow embedding of the `transfer_hook` Anchor program
(`src/transfer-hook/src/lib.rs`) and proofs about its royalty-splitting
logic, its fallback instruction dispatcher, and its extra-account-metas
provisioning.

Machine integers are modelled as `Nat` with explicit reduction modulo
`2 ^ 64` where Rust `u64` arithmetic can wrap.
-/

namespace TransferHook

/-- The modulus of the Rust `u64` type. -/
def U64_MOD : Nat := 2 ^ 64

/-- Constant from the program: `const ROYALTY_PERCENTAGE: u64 = 5;`. -/
def ROYALTY_PERCENTAGE : Nat := 5

/-- Embeds `let royalty_amount = amount * ROYALTY_PERCENTAGE / 100;`
(line 70).  The Rust multiplication is `u64` arithmetic, so the product is
reduced modulo `2 ^ 64` before the truncating division by 100. -/
def royalty_amount (amount : Nat) : Nat :=
  amount * ROYALTY_PERCENTAGE % U64_MOD / 100

/-- Embeds `let transfer_amount = amount - royalty_amount;` (line 71).
`Nat` subtraction coincides with `u64` subtraction here because
`royalty_amount amount ≤ amount` for every `amount < 2 ^ 64`
(see `royalty_amount_le`), so the subtraction never wraps. -/
def transfer_amount (amount : Nat) : Nat :=
  amount - royalty_amount amount

/-- The mathematically intended royalty, with no `u64` wrap-around:
`⌊amount * 5 / 100⌋` over unbounded integers. -/
def idealRoyalty (amount : Nat) : Nat :=
  amount * ROYALTY_PERCENTAGE / 100

/-- Errors surfaced by the program or by the collaborators it calls into
(the SPL token program and the system program). -/
inductive ProgError where
  | invalidInstructionData
  | insufficientFunds
  | arithmeticOverflow
  | accountAlreadyInUse
  deriving DecidableEq, Repr

/-- The three token-account roles appearing in the `TransferHook` accounts
struct: `source_token`, `destination_token`, `royalty_token_account`. -/
inductive AccountRole where
  | source
  | destination
  | royaltyRecipient
  deriving DecidableEq, Repr

/-- One call to `anchor_spl::token::transfer`, recorded in the order the
handler issues them. -/
structure TransferEvent where
  src : AccountRole
  dst : AccountRole
  amt : Nat
  deriving DecidableEq, Repr

/-- Balances of the three token accounts named in the `TransferHook`
accounts struct. -/
structure TokenState where
  sourceBalance : Nat
  destBalance : Nat
  royaltyBalance : Nat
  deriving DecidableEq, Repr

/-- Semantics of the SPL token `transfer` primitive that
`anchor_spl::token::transfer` delegates to: fail on insufficient source
balance, fail if crediting would overflow the destination `u64`, otherwise
move `amt` from one balance to the other. -/
def splTransfer (fromBal toBal amt : Nat) : Except ProgError (Nat × Nat) :=
  if fromBal < amt then .error .insufficientFunds
  else if U64_MOD ≤ toBal + amt then .error .arithmeticOverflow
  else .ok (fromBal - amt, toBal + amt)

/-- Embeds the `transfer_hook` handler (lines 66-100): compute the split,
transfer the royalty from `source_token` to `royalty_token_account`, then
transfer the remainder from `source_token` to `destination_token`.  On
success it returns the new balances together with the list of issued
sub-transfers, in issue order. -/
def transfer_hook (st : TokenState) (amount : Nat) :
    Except ProgError (TokenState × List TransferEvent) :=
  match splTransfer st.sourceBalance st.royaltyBalance
      (royalty_amount amount) with
  | .error e => .error e
  | .ok (s₁, roy₁) =>
      match splTransfer s₁ st.destBalance (transfer_amount amount) with
      | .error e => .error e
      | .ok (s₂, d₂) =>
          .ok (⟨s₂, d₂, roy₁⟩,
            [⟨.source, .royaltyRecipient, royalty_amount amount⟩,
             ⟨.source, .destination, transfer_amount amount⟩])

/-! Byte-level model of the fallback dispatcher (lines 103-121).  Raw
instruction data is a list of bytes; a byte is a `Nat` that a well-formed
input keeps below 256. -/

/-- Little-endian `u64` encoding, `u64::to_le_bytes` (line 114). -/
def u64ToLeBytes (n : Nat) : List Nat :=
  [n % 256, n / 2 ^ 8 % 256, n / 2 ^ 16 % 256, n / 2 ^ 24 % 256,
   n / 2 ^ 32 % 256, n / 2 ^ 40 % 256, n / 2 ^ 48 % 256, n / 2 ^ 56 % 256]

/-- Little-endian `u64` decoding from the first 8 bytes of a slice, as in
`rest.get(..8) … u64::from_le_bytes` in the interface crate's `unpack` and
in the Borsh deserialization of the handler's `amount` argument; `none`
when fewer than 8 bytes are available. -/
def u64FromLeBytes (bs : List Nat) : Option Nat :=
  match bs with
  | b₀ :: b₁ :: b₂ :: b₃ :: b₄ :: b₅ :: b₆ :: b₇ :: _ =>
      some (b₀ + b₁ * 2 ^ 8 + b₂ * 2 ^ 16 + b₃ * 2 ^ 24 +
            b₄ * 2 ^ 32 + b₅ * 2 ^ 40 + b₆ * 2 ^ 48 + b₇ * 2 ^ 56)
  | _ => none

/-- Little-endian `u32` decoding from the first 4 bytes of a slice. -/
def u32FromLeBytes (bs : List Nat) : Option Nat :=
  match bs with
  | b₀ :: b₁ :: b₂ :: b₃ :: _ =>
      some (b₀ + b₁ * 2 ^ 8 + b₂ * 2 ^ 16 + b₃ * 2 ^ 24)
  | _ => none

/-- First 8 bytes of `sha256("spl-transfer-hook-interface:execute")`: the
discriminator of the interface's `Execute` instruction. -/
def EXECUTE_DISCRIMINATOR : List Nat := [105, 37, 101, 197, 75, 251, 102, 26]

/-- First 8 bytes of
`sha256("spl-transfer-hook-interface:initialize-extra-account-metas")`. -/
def INITIALIZE_EXTRA_ACCOUNT_METAS_DISCRIMINATOR : List Nat :=
  [43, 34, 13, 49, 167, 88, 235, 235]

/-- First 8 bytes of
`sha256("spl-transfer-hook-interface:update-extra-account-metas")`. -/
def UPDATE_EXTRA_ACCOUNT_METAS_DISCRIMINATOR : List Nat :=
  [157, 105, 42, 146, 102, 85, 241, 174]

/-- The tagged union decoded by
`spl_transfer_hook_interface::instruction::TransferHookInstruction`.  The
two metadata variants carry their packed 35-byte `ExtraAccountMeta`
entries as raw byte chunks. -/
inductive TransferHookInstruction where
  | execute (amount : Nat)
  | initializeExtraAccountMetaList (metas : List (List Nat))
  | updateExtraAccountMetaList (metas : List (List Nat))
  deriving DecidableEq, Repr

/-- Splits a byte slice into `count` chunks of `size` bytes each, failing
when the slice is too short; models reading `count` packed
`ExtraAccountMeta` entries (35 bytes each). -/
def takeChunks (size : Nat) : Nat → List Nat → Except ProgError (List (List Nat))
  | 0, _ => .ok []
  | count + 1, bs =>
      if bs.length < size then .error .invalidInstructionData
      else do
        let rest ← takeChunks size count (bs.drop size)
        .ok (bs.take size :: rest)

/-- Payload of the two extra-account-meta-list variants: a little-endian
`u32` entry count followed by `count` packed 35-byte entries. -/
def unpackExtraAccountMetas (bs : List Nat) :
    Except ProgError (List (List Nat)) :=
  match u32FromLeBytes bs with
  | none => .error .invalidInstructionData
  | some count => takeChunks 35 count (bs.drop 4)

/-- Embeds `TransferHookInstruction::unpack` from the
`spl-transfer-hook-interface` crate (called at line 108): split off the
8-byte discriminator, then decode the variant payload; any failure and any
unknown discriminator is `InvalidInstructionData`. -/
def unpack (input : List Nat) : Except ProgError TransferHookInstruction :=
  if input.length < 8 then .error .invalidInstructionData
  else if input.take 8 = EXECUTE_DISCRIMINATOR then
    match u64FromLeBytes (input.drop 8) with
    | some amount => .ok (.execute amount)
    | none => .error .invalidInstructionData
  else if input.take 8 = INITIALIZE_EXTRA_ACCOUNT_METAS_DISCRIMINATOR then
    (unpackExtraAccountMetas (input.drop 8)).map .initializeExtraAccountMetaList
  else if input.take 8 = UPDATE_EXTRA_ACCOUNT_METAS_DISCRIMINATOR then
    (unpackExtraAccountMetas (input.drop 8)).map .updateExtraAccountMetaList
  else .error .invalidInstructionData

/-- Borsh decoding applied by the Anchor-generated
`__private::__global::transfer_hook` wrapper to the instruction data the
fallback hands it: a little-endian `u64` read from the front of the
slice. -/
def anchorDecodeAmount (bs : List Nat) : Option Nat :=
  u64FromLeBytes bs

/-- Embeds the `fallback` handler (lines 103-121): unpack the raw data
against the interface encoding; on `Execute { amount }` re-encode `amount`
as `amount.to_le_bytes()` and invoke the `transfer_hook` handler (which
Borsh-decodes the amount back); on every other variant return
`InvalidInstructionData`.  Errors carry no state and no events: the
handler was not invoked. -/
def fallback (st : TokenState) (data : List Nat) :
    Except ProgError (TokenState × List TransferEvent) :=
  match unpack data with
  | .error e => .error e
  | .ok (.execute amount) =>
      let amountBytes := u64ToLeBytes amount
      match anchorDecodeAmount amountBytes with
      | some a => transfer_hook st a
      | none => .error .invalidInstructionData
  | .ok _ => .error .invalidInstructionData

/-- Helper for stating claims about the dispatcher: `true` exactly when the
raw data unpacks as the interface's `Execute` variant. -/
def unpacksAsExecute (data : List Nat) : Bool :=
  match unpack data with
  | .ok (.execute _) => true
  | _ => false

/-! Model of `initialize_extra_account_meta_list` (lines 23-64). -/

/-- ASCII bytes of the seed literal `b"extra-account-metas"` (lines 37 and
132). -/
def extraAccountMetasSeed : List Nat :=
  [101, 120, 116, 114, 97, 45, 97, 99, 99, 111, 117, 110, 116, 45,
   109, 101, 116, 97, 115]

/-- A program-derived address, modelled as the seed data that determines
it: the constant salt together with the mint (asset) identifier.  The real
derivation hashes these seeds with the program id; keeping the seeds
themselves preserves determinism and the binding to the mint. -/
abbrev PdaAddress := List Nat × Nat

/-- Deterministic address of the extra-account-metas record for a mint,
from the seeds `[b"extra-account-metas", mint]`. -/
def deriveExtraAccountMetaListAddress (mint : Nat) : PdaAddress :=
  (extraAccountMetasSeed, mint)

/-- Byte size of one packed `ExtraAccountMeta` entry: a 1-byte
discriminator, a 32-byte address configuration, and two 1-byte flags. -/
def EXTRA_ACCOUNT_META_SIZE : Nat := 35

/-- Embeds `ExtraAccountMetaList::size_of(count)` (line 31): the TLV base
length (8-byte discriminator plus 4-byte length) plus the pod-slice length
(4-byte count plus the packed entries). -/
def extraAccountMetaListSizeOf (count : Nat) : Nat :=
  (8 + 4) + (4 + count * EXTRA_ACCOUNT_META_SIZE)

/-- Little-endian `u32` encoding. -/
def u32ToLeBytes (n : Nat) : List Nat :=
  [n % 256, n / 2 ^ 8 % 256, n / 2 ^ 16 % 256, n / 2 ^ 24 % 256]

/-- Bytes written by
`ExtraAccountMetaList::init::<ExecuteInstruction>(data, metas)` (lines
58-61): the `ExecuteInstruction` TLV discriminator, the pod-slice byte
length, the entry count, then the packed entries. -/
def extraAccountMetaListInitBytes (metas : List (List Nat)) : List Nat :=
  EXECUTE_DISCRIMINATOR ++
  u32ToLeBytes (4 + metas.length * EXTRA_ACCOUNT_META_SIZE) ++
  u32ToLeBytes metas.length ++
  metas.flatten

/-- Decodes an extra-account-metas record back to its entry count: check
the TLV discriminator, read the pod-slice length and the count, and check
that they agree and that the buffer holds the announced entries. -/
def decodeExtraAccountMetaCount (bs : List Nat) : Option Nat :=
  if bs.take 8 = EXECUTE_DISCRIMINATOR then
    match u32FromLeBytes (bs.drop 8), u32FromLeBytes (bs.drop 12) with
    | some len, some count =>
        if len = 4 + count * EXTRA_ACCOUNT_META_SIZE ∧
            16 + count * EXTRA_ACCOUNT_META_SIZE ≤ bs.length then
          some count
        else none
    | _, _ => none
  else none

/-- A persisted account: its lamport balance and its data bytes. -/
structure LedgerAccount where
  lamports : Nat
  accData : List Nat
  deriving DecidableEq, Repr

/-- The slice of the ledger the provisioner touches: the accounts existing
at program-derived addresses, and the payer's lamport balance. -/
structure World where
  accounts : List (PdaAddress × LedgerAccount)
  payerLamports : Nat
  deriving DecidableEq, Repr

/-- Looks an address up in the ledger; `none` means the address is
unallocated. -/
def lookupAccount : List (PdaAddress × LedgerAccount) → PdaAddress →
    Option LedgerAccount
  | [], _ => none
  | (k, v) :: rest, a => if k = a then some v else lookupAccount rest a

/-- Number of ledger entries sitting at the metadata address derived for a
mint. -/
def recordCount : List (PdaAddress × LedgerAccount) → PdaAddress → Nat
  | [], _ => 0
  | (k, _) :: rest, a => (if k = a then 1 else 0) + recordCount rest a

/-- Embeds `initialize_extra_account_meta_list` (lines 23-64).  The
current policy declares no extra accounts (`let account_metas = vec![]`,
line 28).  The account size is `ExtraAccountMetaList::size_of(0)`, the
funding is the rent-exempt minimum for that size (`Rent::get()?
.minimum_balance`, line 33, passed in as `rentMin`), and the system
program's `create_account` fails when the derived address is already
allocated or the payer cannot fund it.  On success the record holds the
canonical empty-list encoding. -/
def initialize_extra_account_meta_list (rentMin : Nat → Nat) (w : World)
    (mint : Nat) : Except ProgError World :=
  let accountMetas : List (List Nat) := []
  let accountSize := extraAccountMetaListSizeOf accountMetas.length
  let lamports := rentMin accountSize
  let addr := deriveExtraAccountMetaListAddress mint
  match lookupAccount w.accounts addr with
  | some _ => .error .accountAlreadyInUse
  | none =>
      if w.payerLamports < lamports then .error .insufficientFunds
      else .ok
        { accounts :=
            (addr, ⟨lamports, extraAccountMetaListInitBytes accountMetas⟩)
              :: w.accounts,
          payerLamports := w.payerLamports - lamports }

/-! Helper lemmas shared by the claim theorems. -/

/-- The computed royalty never exceeds the amount, wrap-around included:
without wrap it is at most a twentieth of the amount, and with wrap it is
at most `(2 ^ 64 - 1) / 100`, which is below any amount large enough to
wrap.  Hence line 71's `u64` subtraction never underflows. -/
theorem royalty_amount_le (amount : Nat) : royalty_amount amount ≤ amount := by
  have h1 : amount * ROYALTY_PERCENTAGE % U64_MOD ≤ amount * 5 := by
    simpa [ROYALTY_PERCENTAGE] using Nat.mod_le (amount * 5) U64_MOD
  have h2 : amount * ROYALTY_PERCENTAGE % U64_MOD / 100 ≤ amount * 5 / 100 :=
    Nat.div_le_div_right h1
  have h3 : amount * 5 / 100 ≤ amount := by omega
  unfold royalty_amount
  omega

/-- The two computed legs always re-assemble the gross amount. -/
theorem royalty_add_transfer (amount : Nat) :
    royalty_amount amount + transfer_amount amount = amount := by
  have := royalty_amount_le amount
  unfold transfer_amount
  omega

/-- Below the overflow bound the `u64` product is the true product, so the
computed royalty is the mathematically intended one. -/
theorem royalty_amount_eq_ideal (amount : Nat) (h : amount * 5 < U64_MOD) :
    royalty_amount amount = idealRoyalty amount := by
  unfold royalty_amount idealRoyalty ROYALTY_PERCENTAGE
  rw [Nat.mod_eq_of_lt (by simpa [ROYALTY_PERCENTAGE] using h)]

/-- Anatomy of a successful SPL token transfer. -/
theorem splTransfer_ok {fromBal toBal amt f t : Nat}
    (h : splTransfer fromBal toBal amt = .ok (f, t)) :
    amt ≤ fromBal ∧ f = fromBal - amt ∧ t = toBal + amt := by
  unfold splTransfer at h
  split at h
  · exact absurd h (by simp)
  · split at h
    · exact absurd h (by simp)
    · simp only [Except.ok.injEq, Prod.mk.injEq] at h
      omega

/-- Encoding a `u64` and reading it back is the identity. -/
theorem u64ToLeBytes_roundtrip (a : Nat) (h : a < U64_MOD) :
    u64FromLeBytes (u64ToLeBytes a) = some a := by
  have h' : a < 18446744073709551616 := by simpa [U64_MOD] using h
  simp only [u64ToLeBytes, u64FromLeBytes, Option.some.injEq]
  norm_num
  omega

/-- A value read from genuine bytes fits in a `u64`. -/
theorem u64FromLeBytes_lt :
    ∀ bs : List Nat, (∀ b ∈ bs, b < 256) →
      ∀ a, u64FromLeBytes bs = some a → a < U64_MOD
  | b₀ :: b₁ :: b₂ :: b₃ :: b₄ :: b₅ :: b₆ :: b₇ :: rest, hb, a, h => by
      simp only [u64FromLeBytes, Option.some.injEq] at h
      have h₀ : b₀ < 256 := hb _ (by simp)
      have h₁ : b₁ < 256 := hb _ (by simp)
      have h₂ : b₂ < 256 := hb _ (by simp)
      have h₃ : b₃ < 256 := hb _ (by simp)
      have h₄ : b₄ < 256 := hb _ (by simp)
      have h₅ : b₅ < 256 := hb _ (by simp)
      have h₆ : b₆ < 256 := hb _ (by simp)
      have h₇ : b₇ < 256 := hb _ (by simp)
      have hU : (U64_MOD : Nat) = 18446744073709551616 := by norm_num [U64_MOD]
      rw [hU]
      subst h
      norm_num
      omega
  | [], _, a, h => by simp [u64FromLeBytes] at h
  | [b₀], _, a, h => by simp [u64FromLeBytes] at h
  | [b₀, b₁], _, a, h => by simp [u64FromLeBytes] at h
  | [b₀, b₁, b₂], _, a, h => by simp [u64FromLeBytes] at h
  | [b₀, b₁, b₂, b₃], _, a, h => by simp [u64FromLeBytes] at h
  | [b₀, b₁, b₂, b₃, b₄], _, a, h => by simp [u64FromLeBytes] at h
  | [b₀, b₁, b₂, b₃, b₄, b₅], _, a, h => by simp [u64FromLeBytes] at h
  | [b₀, b₁, b₂, b₃, b₄, b₅, b₆], _, a, h => by simp [u64FromLeBytes] at h

/-- An address that fails lookup is not among the ledger's keys. -/
theorem lookupAccount_none_not_mem (l : List (PdaAddress × LedgerAccount))
    (a : PdaAddress) (h : lookupAccount l a = none) : a ∉ l.map Prod.fst := by
  induction l with
  | nil => simp
  | cons p rest ih =>
      obtain ⟨k, v⟩ := p
      by_cases hk : k = a
      · subst hk; simp [lookupAccount] at h
      · simp only [lookupAccount, if_neg hk] at h
        simpa [hk, Ne.symm hk] using ih h

/-- An address missing from the keys has no records. -/
theorem recordCount_eq_zero (l : List (PdaAddress × LedgerAccount))
    (a : PdaAddress) (h : a ∉ l.map Prod.fst) : recordCount l a = 0 := by
  induction l with
  | nil => rfl
  | cons p rest ih =>
      obtain ⟨k, v⟩ := p
      simp only [List.map_cons, List.mem_cons] at h
      push_neg at h
      simp [recordCount, Ne.symm h.1, ih h.2]

/-- With pairwise-distinct keys every address carries at most one
record. -/
theorem recordCount_le_one (l : List (PdaAddress × LedgerAccount))
    (hnd : (l.map Prod.fst).Nodup) (a : PdaAddress) : recordCount l a ≤ 1 := by
  induction l with
  | nil => simp [recordCount]
  | cons p rest ih =>
      obtain ⟨k, v⟩ := p
      simp only [List.map_cons, List.nodup_cons] at hnd
      by_cases hk : k = a
      · subst hk
        simp [recordCount, recordCount_eq_zero rest _ hnd.1]
      · simpa [recordCount, hk] using ih hnd.2

/-! Claim theorems. -/

/-- Claim C1: for every `u64` amount whose product with 5 does not
overflow, the handler computes `royalty_amount = ⌊amount * 5 / 100⌋` and
`transfer_amount = amount - royalty_amount`, and the two legs sum back to
the amount. -/
theorem transfer_hook_split_correct (amount : Nat) (h : amount * 5 < U64_MOD) :
    royalty_amount amount = amount * 5 / 100 ∧
    transfer_amount amount = amount - royalty_amount amount ∧
    royalty_amount amount + transfer_amount amount = amount :=
  ⟨by simpa [idealRoyalty, ROYALTY_PERCENTAGE] using
      royalty_amount_eq_ideal amount h,
   rfl, royalty_add_transfer amount⟩

/-- Witness for C1 at `amount = 100`. -/
theorem transfer_hook_split_correct_witness :
    100 * 5 < U64_MOD ∧
    (royalty_amount 100 = 100 * 5 / 100 ∧
     transfer_amount 100 = 100 - royalty_amount 100 ∧
     royalty_amount 100 + transfer_amount 100 = 100) :=
  ⟨by decide, transfer_hook_split_correct 100 (by decide)⟩

/-- Claim C5: the royalty computation has no overflow guard: at
`amount = 2 ^ 63` the `u64` product `amount * 5` exceeds the `u64` range,
so the computed royalty (the wrapped product divided by 100) differs from
the mathematically intended `⌊amount * 5 / 100⌋`. -/
theorem royalty_overflow_unguarded :
    2 ^ 63 < U64_MOD ∧
    U64_MOD ≤ 2 ^ 63 * 5 ∧
    royalty_amount (2 ^ 63) = 92233720368547758 ∧
    idealRoyalty (2 ^ 63) = 461168601842738790 ∧
    royalty_amount (2 ^ 63) ≠ idealRoyalty (2 ^ 63) :=
  ⟨by norm_num [U64_MOD], by norm_num [U64_MOD], by decide, by decide, by decide⟩

/-- Claim C9: the concrete test vectors: `amount = 100` yields the split
`(5, 95)`, `amount = 1` yields `(0, 1)` by truncation, `amount = 0` yields
`(0, 0)` and the handler still issues two zero-value transfers and
succeeds. -/
theorem transfer_hook_test_vectors :
    royalty_amount 100 = 5 ∧ transfer_amount 100 = 95 ∧
    royalty_amount 1 = 0 ∧ transfer_amount 1 = 1 ∧
    royalty_amount 0 = 0 ∧ transfer_amount 0 = 0 ∧
    transfer_hook ⟨7, 3, 2⟩ 0 =
      .ok (⟨7, 3, 2⟩,
        [⟨.source, .royaltyRecipient, 0⟩, ⟨.source, .destination, 0⟩]) :=
  ⟨by decide, by decide, by decide, by decide, by decide, by decide, by rfl⟩

/-- Claim C10: every amount below 20 pays no royalty and is forwarded
whole to the destination; and under the safe-multiplication bound the
royalty never exceeds the amount, so line 71's subtraction cannot
underflow. -/
theorem small_transfers_pay_no_royalty (amount : Nat) :
    (amount < 20 →
      royalty_amount amount = 0 ∧ transfer_amount amount = amount) ∧
    (amount * 5 < U64_MOD → royalty_amount amount ≤ amount) := by
  constructor
  · intro h
    have h5 : amount * 5 < 100 := by omega
    have hlt : amount * ROYALTY_PERCENTAGE < U64_MOD := by
      norm_num [U64_MOD, ROYALTY_PERCENTAGE]; omega
    have h0 : royalty_amount amount = 0 := by
      unfold royalty_amount
      rw [Nat.mod_eq_of_lt hlt]
      exact Nat.div_eq_of_lt (by simpa [ROYALTY_PERCENTAGE] using h5)
    refine ⟨h0, ?_⟩
    unfold transfer_amount
    omega
  · intro _
    exact royalty_amount_le amount

/-- Witness for C10 at `amount = 7`. -/
theorem small_transfers_pay_no_royalty_witness :
    (7 < 20 ∧ (royalty_amount 7 = 0 ∧ transfer_amount 7 = 7)) ∧
    (7 * 5 < U64_MOD ∧ royalty_amount 7 ≤ 7) :=
  ⟨⟨by decide, (small_transfers_pay_no_royalty 7).1 (by decide)⟩,
   ⟨by decide, (small_transfers_pay_no_royalty 7).2 (by decide)⟩⟩

/-- Claim C2: a successful `transfer_hook` invocation debits the source by
exactly the gross amount, credits the royalty recipient by the royalty and
the destination by the remainder, and the two legs sum to the amount. -/
theorem transfer_hook_balance_postconditions (st st' : TokenState)
    (amount : Nat) (events : List TransferEvent)
    (h : transfer_hook st amount = .ok (st', events)) :
    amount ≤ st.sourceBalance ∧
    st'.sourceBalance = st.sourceBalance - amount ∧
    st'.royaltyBalance = st.royaltyBalance + royalty_amount amount ∧
    st'.destBalance = st.destBalance + transfer_amount amount ∧
    royalty_amount amount + transfer_amount amount = amount := by
  have hsum := royalty_add_transfer amount
  unfold transfer_hook at h
  split at h
  · exact absurd h (by simp)
  · rename_i s₁ roy₁ heq₁
    split at h
    · exact absurd h (by simp)
    · rename_i s₂ d₂ heq₂
      simp only [Except.ok.injEq, Prod.mk.injEq] at h
      obtain ⟨hst, -⟩ := h
      subst hst
      obtain ⟨hr₁, hr₂, hr₃⟩ := splTransfer_ok heq₁
      obtain ⟨ht₁, ht₂, ht₃⟩ := splTransfer_ok heq₂
      refine ⟨by omega, ?_, ?_, ?_, hsum⟩ <;> simp <;> omega

/-- Witness for C2 at the spec's end-to-end vector: source balance 1000,
amount 1000. -/
theorem transfer_hook_balance_postconditions_witness :
    transfer_hook ⟨1000, 0, 0⟩ 1000 =
      .ok (⟨0, 950, 50⟩,
        [⟨.source, .royaltyRecipient, 50⟩, ⟨.source, .destination, 950⟩]) ∧
    (1000 ≤ (1000 : Nat) ∧
     (0 : Nat) = 1000 - 1000 ∧
     (50 : Nat) = 0 + royalty_amount 1000 ∧
     (950 : Nat) = 0 + transfer_amount 1000 ∧
     royalty_amount 1000 + transfer_amount 1000 = 1000) :=
  ⟨by rfl,
   transfer_hook_balance_postconditions ⟨1000, 0, 0⟩ ⟨0, 950, 50⟩ 1000
     [⟨.source, .royaltyRecipient, 50⟩, ⟨.source, .destination, 950⟩]
     (by rfl)⟩

/-- Claim C6: within one invocation the royalty sub-transfer (source to
royalty recipient) is issued strictly before the remainder sub-transfer
(source to destination): the event list of every successful run is exactly
those two events in that order. -/
theorem transfer_hook_royalty_first (st st' : TokenState) (amount : Nat)
    (events : List TransferEvent)
    (h : transfer_hook st amount = .ok (st', events)) :
    events = [⟨.source, .royaltyRecipient, royalty_amount amount⟩,
              ⟨.source, .destination, transfer_amount amount⟩] := by
  unfold transfer_hook at h
  split at h
  · exact absurd h (by simp)
  · split at h
    · exact absurd h (by simp)
    · simp only [Except.ok.injEq, Prod.mk.injEq] at h
      exact h.2.symm

/-- Witness for C6 at source balance 100, amount 100. -/
theorem transfer_hook_royalty_first_witness :
    transfer_hook ⟨100, 0, 0⟩ 100 =
      .ok (⟨0, 95, 5⟩,
        [⟨.source, .royaltyRecipient, 5⟩, ⟨.source, .destination, 95⟩]) ∧
    ([⟨.source, .royaltyRecipient, 5⟩, ⟨.source, .destination, 95⟩] :
        List TransferEvent) =
      [⟨.source, .royaltyRecipient, royalty_amount 100⟩,
       ⟨.source, .destination, transfer_amount 100⟩] :=
  ⟨by rfl,
   transfer_hook_royalty_first ⟨100, 0, 0⟩ ⟨0, 95, 5⟩ 100
     [⟨.source, .royaltyRecipient, 5⟩, ⟨.source, .destination, 95⟩]
     (by rfl)⟩

/-- Claim C3: whenever the raw data unpacks as `Execute { amount }`, the
fallback's re-encoding of `amount` into 8 little-endian bytes is decoded
back to the same value by the handler wrapper, and the fallback behaves
exactly as the `transfer_hook` handler invoked at that amount. -/
theorem fallback_execute_invokes_handler (st : TokenState) (data : List Nat)
    (amount : Nat) (hbytes : ∀ b ∈ data, b < 256)
    (h : unpack data = .ok (.execute amount)) :
    amount < U64_MOD ∧
    anchorDecodeAmount (u64ToLeBytes amount) = some amount ∧
    fallback st data = transfer_hook st amount := by
  have hdrop : ∀ b ∈ data.drop 8, b < 256 := fun b hb =>
    hbytes b (List.mem_of_mem_drop hb)
  have hfrom : u64FromLeBytes (data.drop 8) = some amount := by
    unfold unpack at h
    split_ifs at h with h₁ h₂ h₃ h₄
    · split at h
      · rename_i a heq
        simp only [Except.ok.injEq, TransferHookInstruction.execute.injEq] at h
        rw [heq, h]
      · exact absurd h (by simp)
    · rcases hm : unpackExtraAccountMetas (data.drop 8) with e | ms <;>
        simp [hm, Except.map] at h
    · rcases hm : unpackExtraAccountMetas (data.drop 8) with e | ms <;>
        simp [hm, Except.map] at h
  have hlt : amount < U64_MOD := u64FromLeBytes_lt _ hdrop amount hfrom
  have hround : anchorDecodeAmount (u64ToLeBytes amount) = some amount := by
    unfold anchorDecodeAmount
    exact u64ToLeBytes_roundtrip amount hlt
  refine ⟨hlt, hround, ?_⟩
  unfold fallback
  rw [h]
  simp only [hround]

/-- Witness for C3 at `amount = 1000` with source balance 1000. -/
theorem fallback_execute_invokes_handler_witness :
    (∀ b ∈ EXECUTE_DISCRIMINATOR ++ u64ToLeBytes 1000, b < 256) ∧
    unpack (EXECUTE_DISCRIMINATOR ++ u64ToLeBytes 1000) =
      .ok (.execute 1000) ∧
    (1000 < U64_MOD ∧
     anchorDecodeAmount (u64ToLeBytes 1000) = some 1000 ∧
     fallback ⟨1000, 0, 0⟩ (EXECUTE_DISCRIMINATOR ++ u64ToLeBytes 1000) =
       transfer_hook ⟨1000, 0, 0⟩ 1000) :=
  ⟨by decide, by rfl,
   fallback_execute_invokes_handler ⟨1000, 0, 0⟩
     (EXECUTE_DISCRIMINATOR ++ u64ToLeBytes 1000) 1000 (by decide) (by rfl)⟩

/-- Claim C4: raw data that does not unpack as the `Execute` variant —
because unpacking fails (unknown discriminator, or a truncated payload
with fewer than 8 bytes after a valid `Execute` discriminator) or because
it unpacks to another variant — makes the fallback return an error and
never reach the `transfer_hook` handler (no state, no transfer events are
produced). -/
theorem fallback_rejects_non_execute (st : TokenState) (data : List Nat)
    (h : unpacksAsExecute data = false) :
    ∃ e : ProgError, fallback st data = .error e := by
  unfold unpacksAsExecute at h
  rcases hu : unpack data with e | v
  · exact ⟨e, by unfold fallback; rw [hu]⟩
  · rw [hu] at h
    cases v with
    | execute a => simp at h
    | initializeExtraAccountMetaList ms =>
        exact ⟨.invalidInstructionData, by unfold fallback; rw [hu]⟩
    | updateExtraAccountMetaList ms =>
        exact ⟨.invalidInstructionData, by unfold fallback; rw [hu]⟩

/-- Witness for C4 on a truncated payload: a valid `Execute` discriminator
followed by only 3 bytes. -/
theorem fallback_rejects_non_execute_witness :
    unpacksAsExecute (EXECUTE_DISCRIMINATOR ++ [1, 2, 3]) = false ∧
    ∃ e : ProgError,
      fallback ⟨5, 5, 5⟩ (EXECUTE_DISCRIMINATOR ++ [1, 2, 3]) = .error e :=
  ⟨by rfl,
   fallback_rejects_non_execute ⟨5, 5, 5⟩ (EXECUTE_DISCRIMINATOR ++ [1, 2, 3])
     (by rfl)⟩

/-- Claim C7: after a successful `initialize_extra_account_meta_list` for
a mint, the record exists at the address derived from the fixed seed and
the mint, its data has the size given by the general size formula at zero
descriptors, it is funded to the rent-exempt minimum for that size, and it
decodes as zero extra-account descriptors. -/
theorem initialize_creates_empty_record (rentMin : Nat → Nat) (w w' : World)
    (mint : Nat)
    (h : initialize_extra_account_meta_list rentMin w mint = .ok w') :
    ∃ acct : LedgerAccount,
      lookupAccount w'.accounts (deriveExtraAccountMetaListAddress mint) =
        some acct ∧
      acct.accData.length = extraAccountMetaListSizeOf 0 ∧
      acct.lamports = rentMin (extraAccountMetaListSizeOf 0) ∧
      decodeExtraAccountMetaCount acct.accData = some 0 := by
  simp only [initialize_extra_account_meta_list, List.length_nil] at h
  split at h
  · exact absurd h (by simp)
  · split at h
    · exact absurd h (by simp)
    · simp only [Except.ok.injEq] at h
      subst h
      exact ⟨⟨rentMin (extraAccountMetaListSizeOf 0),
              extraAccountMetaListInitBytes []⟩,
             by simp [lookupAccount], rfl, rfl, rfl⟩

/-- Witness for C7: empty ledger, payer balance 1000, identity rent
function, mint 1. -/
theorem initialize_creates_empty_record_witness :
    initialize_extra_account_meta_list (fun n => n) ⟨[], 1000⟩ 1 =
      .ok ⟨[(deriveExtraAccountMetaListAddress 1,
             ⟨16, extraAccountMetaListInitBytes []⟩)], 984⟩ ∧
    ∃ acct : LedgerAccount,
      lookupAccount [(deriveExtraAccountMetaListAddress 1,
          ⟨16, extraAccountMetaListInitBytes []⟩)]
        (deriveExtraAccountMetaListAddress 1) = some acct ∧
      acct.accData.length = extraAccountMetaListSizeOf 0 ∧
      acct.lamports = (fun n => n) (extraAccountMetaListSizeOf 0) ∧
      decodeExtraAccountMetaCount acct.accData = some 0 :=
  ⟨by rfl,
   initialize_creates_empty_record (fun n => n) ⟨[], 1000⟩
     ⟨[(deriveExtraAccountMetaListAddress 1,
        ⟨16, extraAccountMetaListInitBytes []⟩)], 984⟩ 1 (by rfl)⟩

/-- Claim C8: after a successful provisioning for a mint, provisioning the
same mint again fails with an already-allocated error, and—because the
record address is a deterministic function of the mint—the resulting
ledger still has pairwise-distinct addresses and at most one record at any
mint's metadata address. -/
theorem initialize_second_call_fails (rentMin : Nat → Nat) (w w' : World)
    (mint : Nat) (hnd : (w.accounts.map Prod.fst).Nodup)
    (h : initialize_extra_account_meta_list rentMin w mint = .ok w') :
    initialize_extra_account_meta_list rentMin w' mint =
      .error .accountAlreadyInUse ∧
    (w'.accounts.map Prod.fst).Nodup ∧
    recordCount w'.accounts (deriveExtraAccountMetaListAddress mint) = 1 ∧
    ∀ m : Nat, recordCount w'.accounts (deriveExtraAccountMetaListAddress m) ≤ 1 := by
  simp only [initialize_extra_account_meta_list, List.length_nil] at h
  split at h
  · exact absurd h (by simp)
  · rename_i hlook
    split at h
    · exact absurd h (by simp)
    · simp only [Except.ok.injEq] at h
      subst h
      have hmem : deriveExtraAccountMetaListAddress mint ∉ w.accounts.map Prod.fst :=
        lookupAccount_none_not_mem _ _ hlook
      have hzero := recordCount_eq_zero _ _ hmem
      have hnd' : ((deriveExtraAccountMetaListAddress mint,
          (⟨rentMin (extraAccountMetaListSizeOf 0),
            extraAccountMetaListInitBytes []⟩ : LedgerAccount)) ::
            w.accounts |>.map Prod.fst).Nodup := by
        simp only [List.map_cons, List.nodup_cons]
        exact ⟨hmem, hnd⟩
      refine ⟨?_, hnd', ?_, ?_⟩
      · simp [initialize_extra_account_meta_list, lookupAccount]
      · simp [recordCount, hzero]
      · intro m
        exact recordCount_le_one _ hnd' _

/-- Witness for C8: empty ledger, payer balance 1000, identity rent
function, mint 1. -/
theorem initialize_second_call_fails_witness :
    (([] : List (PdaAddress × LedgerAccount)).map Prod.fst).Nodup ∧
    initialize_extra_account_meta_list (fun n => n) ⟨[], 1000⟩ 1 =
      .ok ⟨[(deriveExtraAccountMetaListAddress 1,
             ⟨16, extraAccountMetaListInitBytes []⟩)], 984⟩ ∧
    (initialize_extra_account_meta_list (fun n => n)
        ⟨[(deriveExtraAccountMetaListAddress 1,
           ⟨16, extraAccountMetaListInitBytes []⟩)], 984⟩ 1 =
      .error .accountAlreadyInUse ∧
     (([(deriveExtraAccountMetaListAddress 1,
         (⟨16, extraAccountMetaListInitBytes []⟩ : LedgerAccount))].map
           Prod.fst).Nodup) ∧
     recordCount [(deriveExtraAccountMetaListAddress 1,
         ⟨16, extraAccountMetaListInitBytes []⟩)]
       (deriveExtraAccountMetaListAddress 1) = 1 ∧
     ∀ m : Nat,
       recordCount [(deriveExtraAccountMetaListAddress 1,
           ⟨16, extraAccountMetaListInitBytes []⟩)]
         (deriveExtraAccountMetaListAddress m) ≤ 1) :=
  ⟨by simp, by rfl,
   initialize_second_call_fails (fun n => n) ⟨[], 1000⟩
     ⟨[(deriveExtraAccountMetaListAddress 1,
        ⟨16, extraAccountMetaListInitBytes []⟩)], 984⟩ 1 (by simp) (by rfl)⟩

end TransferHook
